import Mathlib

/-! # deffs: a read-only FUSE overlay with a default file

A shallow embedding of `src/main.c`.

* A C string is the list of its characters before the terminator; a `char *`
  that may be `NULL` is an `Option` of such a list.
* The process state (`World`) carries the underlying filesystem as oracles,
  the descriptor table, the open directory streams, the heap, `errno` and the
  trace of filesystem calls issued.
* A heap block records how many bytes it is good for. Every load and store of a
  field of a `deffs_handle` is checked against that size: `alloc_handle` asks
  for `sizeof hdl` bytes, the size of a pointer, so the field `os_fh` lies
  inside the block only when the allocator hands out more than was asked.
* A run that ends the process (a failed `assert`, a dereference of an invalid
  pointer) or leaves defined behaviour (an access outside a block) is an
  `Except.error` carrying the state at that point.
* Constants of the system headers (`errno.h`, `fcntl.h`) and of the data
  layout are parameters, collected in `Consts`.
-/

set_option linter.unusedVariables false

namespace Deffs

/-- Characters of a C string, terminator excluded. -/
abbrev CStr := List Char

/-- Ways in which a run stops instead of returning: a failed `assert`, a store
through a `NULL` pointer, an access through a pointer to nothing live, an
access outside the block pointed to. -/
inductive Fault where
  | assert_fail
  | null_deref
  | wild_ptr
  | out_of_bounds
  deriving DecidableEq, Repr

deriving instance DecidableEq for Except

/-- The C library's `strlen`. -/
def strlen (s : CStr) : Nat := s.length

/-- The character `s[i]`; index `strlen s` holds the terminator. -/
def charAt (s : CStr) (i : Nat) : Char := s.getD i (Char.ofNat 0)

/-- The loop `while (p2[0] == '/') p2++;` of `concat_path`. -/
def skip_slashes : CStr → CStr
  | [] => []
  | c :: t => if c = '/' then skip_slashes t else c :: t

/-- Number of times the loop of `skip_slashes` advances the pointer. -/
def skip_count : CStr → Nat
  | [] => 0
  | c :: t => if c = '/' then skip_count t + 1 else 0

/-- The function `concat_path` of `src/main.c`. The argument `mallocOk n` tells
whether an allocation of `n` bytes succeeds. The result is `error` when an
assertion ends the process, `ok none` for a `NULL` return. -/
def concat_path (mallocOk : Nat → Bool) (p1 p2 : Option CStr) :
    Except Fault (Option CStr) :=
  match p1, p2 with
  | some p1, some p2 =>
    let p1len := strlen p1
    let p2len := strlen p2
    if p1len = 0 ∨ p2len = 0 then .error .assert_fail
    else if mallocOk (p1len + p2len + 2) = false then .ok none
    else
      let path := p1
      if charAt path (p1len - 1) ≠ '/' ∧ charAt p2 0 ≠ '/' then
        .ok (some ((path ++ ['/']) ++ p2))
      else if charAt path (p1len - 1) = '/' then
        .ok (some (path ++ skip_slashes p2))
      else
        .ok (some (path ++ p2))
  | _, _ => .error .assert_fail

/-- The join the specification describes: `B` without its final `'/'`, one
`'/'`, and `P` without any of its leading `'/'`. -/
def spec_join (B P : CStr) : CStr :=
  (if B.getLast? = some '/' then B.dropLast else B) ++ ['/'] ++ P.dropWhile (· = '/')

/-- What `concat_path` joins: all leading `'/'` of `P` are dropped when `B` ends
in `'/'`, at most one of them otherwise. -/
def code_join (B P : CStr) : CStr :=
  (if B.getLast? = some '/' then B.dropLast else B) ++ ['/'] ++
    (if B.getLast? = some '/' then P.dropWhile (· = '/')
     else if P.head? = some '/' then P.tail else P)

/-- Constants of `errno.h` and `fcntl.h`, and the data layout: the size of a
pointer, the size of an `int`, and the offset of the field `os_fh` in
`struct deffs_handle` (the field `os_dirh`, a pointer, is at offset 0). -/
structure Consts where
  ENOENT : Nat
  EINVAL : Nat
  EPERM : Nat
  EBADF : Nat
  O_WRONLY : Nat
  O_RDWR : Nat
  O_CREAT : Nat
  O_EXCL : Nat
  O_TRUNC : Nat
  sizeof_ptr : Nat
  sizeof_int : Nat
  offsetof_os_fh : Nat

/-- The globals `basepath` and `deffile`; `none` is `NULL`. -/
structure Config where
  basepath : Option CStr
  deffile : Option CStr

/-- Contents of a `struct stat`. -/
structure Stat where
  st_ino : Nat
  st_mode : Nat
  st_size : Nat
  deriving DecidableEq, Repr

/-- The buffer `memset(stbuf, 0, sizeof(struct stat))` leaves. -/
def Stat.zero : Stat := ⟨0, 0, 0⟩

/-- The fields of a `struct dirent` the program reads. -/
structure Dirent where
  d_name : CStr
  d_off : Int
  deriving DecidableEq, Repr

/-- What opening a file yields: its bytes, and the error code with which
`read` on it fails, when it does. -/
structure FileSpec where
  data : List Nat
  fail : Option Nat
  deriving DecidableEq, Repr

/-- What opening a directory yields: its entries in stream order, and the
error code with which `readdir` on it fails, when it does. -/
structure DirSpec where
  entries : List Dirent
  fail : Option Nat
  deriving DecidableEq, Repr

/-- An open file description: the file and the file offset. -/
structure OpenFile where
  data : List Nat
  pos : Nat
  fail : Option Nat
  deriving DecidableEq, Repr

/-- An open directory stream: the entries and the cursor. -/
structure DirStream where
  entries : List Dirent
  cursor : Nat
  fail : Option Nat
  deriving DecidableEq, Repr

/-- The record `struct deffs_handle`; `os_dirh = 0` is `NULL`. -/
structure deffs_handle where
  os_dirh : Nat
  os_fh : Int
  deriving DecidableEq, Repr

/-- A block of the heap: the number of bytes it is good for, and what the
fields of a `deffs_handle` laid over it hold. -/
structure Block where
  size : Nat
  val : deffs_handle
  deriving DecidableEq, Repr

/-- The fields of `struct fuse_file_info` the program uses. -/
structure fuse_file_info where
  flags : Nat
  fh : Nat
  deriving DecidableEq, Repr

/-- Calls made to the underlying filesystem. -/
inductive Syscall where
  | lstat (path : Option CStr)
  | sopen (path : Option CStr) (flags : Nat)
  | opendir (path : Option CStr)
  | read (fd : Int) (size : Nat)
  | readdir (dirp : Nat)
  | close (fd : Int)
  | closedir (dirp : Nat)
  deriving DecidableEq, Repr

/-- The underlying filesystem: each call answers with a result or an error
code. -/
structure FS where
  lstat : Option CStr → Except Nat Stat
  sopen : Option CStr → Nat → Except Nat FileSpec
  opendir : Option CStr → Except Nat DirSpec

/-- State of the process. A successful `malloc(n)` returns a block good for
`n + slack n` bytes. C grants the `n` bytes asked and nothing more, which is
`slack n = 0`; a larger `slack` is an allocator that rounds requests up, under
which a store just past the bytes asked still lands inside the block. -/
structure World where
  fs : FS
  mallocOk : Nat → Bool
  slack : Nat → Nat
  errno : Nat
  fds : Nat → Option OpenFile
  nextfd : Nat
  dirs : Nat → Option DirStream
  nextdir : Nat
  heap : Nat → Option Block
  brk : Nat
  trace : List Syscall

/-- Outcome of a callback: the process ended (with the state it ended in), or
the callback returned. -/
abbrev Run (α : Type) := Except (Fault × World) α

/-- Update of a table at one key. -/
def update {α : Type} (m : Nat → Option α) (key : Nat) (v : Option α) : Nat → Option α :=
  fun n => if n = key then v else m n

/-- The call `lstat(path, stbuf)`: the metadata, or `none` for `-1` with `errno` set. -/
def sys_lstat (w : World) (path : Option CStr) : Option Stat × World :=
  let w := { w with trace := w.trace ++ [Syscall.lstat path] }
  match w.fs.lstat path with
  | .ok st => (some st, w)
  | .error e => (none, { w with errno := e })

/-- The call `open(path, flags)`: a fresh descriptor, or `-1` with `errno` set. -/
def sys_open (w : World) (path : Option CStr) (flags : Nat) : Int × World :=
  let w := { w with trace := w.trace ++ [Syscall.sopen path flags] }
  match w.fs.sopen path flags with
  | .ok f =>
    ((w.nextfd : Int),
      { w with fds := update w.fds w.nextfd (some ⟨f.data, 0, f.fail⟩), nextfd := w.nextfd + 1 })
  | .error e => (-1, { w with errno := e })

/-- The call `opendir(path)`: a fresh non-null stream pointer, or `0` (`NULL`)
with `errno` set. -/
def sys_opendir (w : World) (path : Option CStr) : Nat × World :=
  let w := { w with trace := w.trace ++ [Syscall.opendir path] }
  match w.fs.opendir path with
  | .ok d =>
    (w.nextdir + 1,
      { w with dirs := update w.dirs (w.nextdir + 1) (some ⟨d.entries, 0, d.fail⟩),
               nextdir := w.nextdir + 1 })
  | .error e => (0, { w with errno := e })

/-- The call `read(fd, buf, size)`: the count and the bytes transferred from
the file offset on, which advances; or `-1` with `errno` set. -/
def sys_read (k : Consts) (w : World) (fd : Int) (size : Nat) : Int × List Nat × World :=
  let w := { w with trace := w.trace ++ [Syscall.read fd size] }
  match (if 0 ≤ fd then w.fds fd.toNat else none) with
  | none => (-1, [], { w with errno := k.EBADF })
  | some f =>
    match f.fail with
    | some e => (-1, [], { w with errno := e })
    | none =>
      let bytes := (f.data.drop f.pos).take size
      ((bytes.length : Int), bytes,
        { w with fds := update w.fds fd.toNat (some { f with pos := f.pos + bytes.length }) })

/-- The call `readdir(dirp)` on a valid stream: the next entry, or `none`
(`NULL`), with `errno` set on an error and untouched at the end of the
stream. The outer `none` is an invalid stream pointer. -/
def sys_readdir (w : World) (dirp : Nat) : Option (Option Dirent × World) :=
  let w := { w with trace := w.trace ++ [Syscall.readdir dirp] }
  match w.dirs dirp with
  | none => none
  | some d =>
    match d.fail with
    | some e => some (none, { w with errno := e })
    | none =>
      match d.entries.get? d.cursor with
      | some e =>
        some (some e, { w with dirs := update w.dirs dirp (some { d with cursor := d.cursor + 1 }) })
      | none => some (none, w)

/-- The call `close(fd)`. -/
def sys_close (w : World) (fd : Int) : World :=
  let w := { w with trace := w.trace ++ [Syscall.close fd] }
  if 0 ≤ fd then { w with fds := update w.fds fd.toNat none } else w

/-- The call `closedir(dirp)`. -/
def sys_closedir (w : World) (dirp : Nat) : World :=
  { w with trace := w.trace ++ [Syscall.closedir dirp], dirs := update w.dirs dirp none }

/-- The function `translate_path` of `src/main.c`. -/
def translate_path (cfg : Config) (w : World) (path : Option CStr) :
    Except Fault (Option CStr) :=
  concat_path w.mallocOk cfg.basepath path

/-- The function `getattr_callback` of `src/main.c`: the return value and the
contents of `stbuf`. -/
def getattr_callback (k : Consts) (cfg : Config) (w : World) (path : Option CStr)
    (stbuf : Stat) : Run (Int × Stat × World) :=
  match translate_path cfg w path with
  | .error f => .error (f, w)
  | .ok none => .ok (-(k.EINVAL : Int), stbuf, w)
  | .ok (some path) =>
    let stbuf := Stat.zero
    let w := { w with errno := 0 }
    match sys_lstat w (some path) with
    | (some st, w) => .ok (0, st, w)
    | (none, w) =>
      if w.errno ≠ k.ENOENT then .ok (-(w.errno : Int), stbuf, w)
      else
        let w := { w with errno := 0 }
        match sys_lstat w cfg.deffile with
        | (some st, w) => .ok (0, st, w)
        | (none, w) => .ok (-(w.errno : Int), stbuf, w)

/-- The load `hdl->os_dirh`: the field takes the first `sizeof_ptr` bytes of
the block. -/
def load_os_dirh (k : Consts) (w : World) (hdl : Nat) : Except Fault Nat :=
  match w.heap hdl with
  | none => .error .wild_ptr
  | some b => if k.sizeof_ptr ≤ b.size then .ok b.val.os_dirh else .error .out_of_bounds

/-- The store `hdl->os_dirh = v`. -/
def store_os_dirh (k : Consts) (w : World) (hdl : Nat) (v : Nat) : Except Fault World :=
  match w.heap hdl with
  | none => .error .wild_ptr
  | some b =>
    if k.sizeof_ptr ≤ b.size then
      .ok { w with heap := update w.heap hdl (some { b with val := { b.val with os_dirh := v } }) }
    else .error .out_of_bounds

/-- The load `hdl->os_fh`: the field takes `sizeof_int` bytes from offset
`offsetof_os_fh` on. -/
def load_os_fh (k : Consts) (w : World) (hdl : Nat) : Except Fault Int :=
  match w.heap hdl with
  | none => .error .wild_ptr
  | some b =>
    if k.offsetof_os_fh + k.sizeof_int ≤ b.size then .ok b.val.os_fh else .error .out_of_bounds

/-- The store `hdl->os_fh = v`. -/
def store_os_fh (k : Consts) (w : World) (hdl : Nat) (v : Int) : Except Fault World :=
  match w.heap hdl with
  | none => .error .wild_ptr
  | some b =>
    if k.offsetof_os_fh + k.sizeof_int ≤ b.size then
      .ok { w with heap := update w.heap hdl (some { b with val := { b.val with os_fh := v } }) }
    else .error .out_of_bounds

/-- The function `alloc_handle` of `src/main.c`. The allocation asks for
`sizeof hdl` bytes, the size of the pointer `hdl` and not of the record it
points to, and its result is not checked: a failed allocation is dereferenced.
The fresh block holds nothing meaningful until the two stores. -/
def alloc_handle (k : Consts) (w : World) (fi : fuse_file_info) :
    Run (Nat × fuse_file_info × World) :=
  if w.mallocOk k.sizeof_ptr = false then .error (.null_deref, w)
  else
    let hdl := w.brk + 1
    let w := { w with heap := update w.heap hdl
                        (some ⟨k.sizeof_ptr + w.slack k.sizeof_ptr, ⟨0, 0⟩⟩),
                      brk := hdl }
    match store_os_dirh k w hdl 0 with
    | .error f => .error (f, w)
    | .ok w =>
      match store_os_fh k w hdl (-1) with
      | .error f => .error (f, w)
      | .ok w => .ok (hdl, { fi with fh := hdl }, w)

/-- The function `free_handle` of `src/main.c`. -/
def free_handle (k : Consts) (w : World) (fi : fuse_file_info) : Run (fuse_file_info × World) :=
  let hdl := fi.fh
  if hdl = 0 then .ok (fi, w)
  else
    match load_os_dirh k w hdl with
    | .error f => .error (f, w)
    | .ok dirh =>
      match (if dirh ≠ 0 then store_os_dirh k (sys_closedir w dirh) hdl 0 else .ok w) with
      | .error f => .error (f, w)
      | .ok w =>
        match load_os_fh k w hdl with
        | .error f => .error (f, w)
        | .ok fh =>
          match (if fh ≠ -1 then store_os_fh k (sys_close w fh) hdl (-1) else .ok w) with
          | .error f => .error (f, w)
          | .ok w => .ok ({ fi with fh := 0 }, { w with heap := update w.heap hdl none })

/-- The function `opendir_callback` of `src/main.c`. -/
def opendir_callback (k : Consts) (cfg : Config) (w : World) (path : Option CStr)
    (fi : fuse_file_info) : Run (Int × fuse_file_info × World) :=
  match translate_path cfg w path with
  | .error f => .error (f, w)
  | .ok none => .ok (-(k.EINVAL : Int), fi, w)
  | .ok (some path) =>
    let w := { w with errno := 0 }
    match sys_opendir w (some path) with
    | (0, w) => .ok (-(w.errno : Int), fi, w)
    | (fh, w) =>
      match alloc_handle k w fi with
      | .error e => .error e
      | .ok (hdl, fi, w) =>
        match store_os_dirh k w hdl fh with
        | .error f => .error (f, w)
        | .ok w => .ok (0, fi, w)

/-- The function `releasedir_callback` of `src/main.c`. -/
def releasedir_callback (k : Consts) (w : World) (fi : fuse_file_info) :
    Run (Int × fuse_file_info × World) :=
  match free_handle k w fi with
  | .error e => .error e
  | .ok (fi, w) => .ok (0, fi, w)

/-- The dispatcher's `filler(buf, name, NULL, off)`: the entry is appended to
the buffer. Its return value is not looked at by `readdir_callback`. -/
def filler (buf : List (CStr × Int)) (name : CStr) (off : Int) : List (CStr × Int) :=
  buf ++ [(name, off)]

/-- The function `readdir_callback` of `src/main.c`. The buffer `buf` is the
list of entries handed to `filler`, each a name and an offset. -/
def readdir_callback (k : Consts) (w : World) (fi : fuse_file_info)
    (buf : List (CStr × Int)) (offset : Int) : Run (Int × List (CStr × Int) × World) :=
  let _ := offset
  let hdl := fi.fh
  if hdl = 0 then .ok (-(k.EINVAL : Int), buf, w)
  else
    match load_os_dirh k w hdl with
    | .error f => .error (f, w)
    | .ok dirh =>
      if dirh = 0 then .ok (-(k.EINVAL : Int), buf, w)
      else
        let w := { w with errno := 0 }
        match sys_readdir w dirh with
        | none => .error (.wild_ptr, w)
        | some (none, w) => .ok (-(w.errno : Int), buf, w)
        | some (some data, w) => .ok (0, filler buf data.d_name data.d_off, w)

/-- The function `open_callback` of `src/main.c`. -/
def open_callback (k : Consts) (cfg : Config) (w : World) (path : Option CStr)
    (fi : fuse_file_info) : Run (Int × fuse_file_info × World) :=
  match translate_path cfg w path with
  | .error f => .error (f, w)
  | .ok none => .ok (-(k.EINVAL : Int), fi, w)
  | .ok (some path) =>
    let flags := fi.flags
    if flags &&& k.O_WRONLY ≠ 0 ∨ flags &&& k.O_RDWR ≠ 0 ∨ flags &&& k.O_CREAT ≠ 0 ∨
        flags &&& k.O_EXCL ≠ 0 ∨ flags &&& k.O_TRUNC ≠ 0 then
      .ok (-(k.EPERM : Int), fi, w)
    else
      let w := { w with errno := 0 }
      let r := sys_open w (some path) flags
      let r := if r.1 = -1 ∧ r.2.errno = k.ENOENT then
          sys_open { r.2 with errno := 0 } cfg.deffile fi.flags
        else r
      if r.1 = -1 then .ok (-(r.2.errno : Int), fi, r.2)
      else
        match alloc_handle k r.2 fi with
        | .error e => .error e
        | .ok (hdl, fi, w) =>
          match store_os_fh k w hdl r.1 with
          | .error f => .error (f, w)
          | .ok w => .ok (0, fi, w)

/-- The function `read_callback` of `src/main.c`: the return value and the
bytes stored in `buf`. The parameter `offset` is not used by the body. -/
def read_callback (k : Consts) (w : World) (fi : fuse_file_info) (size : Nat)
    (offset : Nat) : Run (Int × List Nat × World) :=
  let hdl := fi.fh
  if hdl = 0 then .ok (-(k.EINVAL : Int), [], w)
  else
    match load_os_fh k w hdl with
    | .error f => .error (f, w)
    | .ok fh =>
      if fh = -1 then .ok (-(k.EINVAL : Int), [], w)
      else .ok (sys_read k w fh size)

/-- What the caller sees of a callback that returned: the return value, the
output, and the filesystem calls made so far; `none` when the process ended. -/
def observe {α β : Type} (r : Run (α × β × World)) : Option (α × β × List Syscall) :=
  match r with
  | .ok (c, a, w) => some (c, a, w.trace)
  | .error _ => none

/-- The dispatcher calling `readdir_callback` `n` times in a row on one
file-info, each call on the state and the buffer the previous one left: the
return values in order, the buffer and the state at the end. -/
def readdir_calls (k : Consts) (fi : fuse_file_info) (offset : Int) :
    Nat → World → List (CStr × Int) → Run (List Int × List (CStr × Int) × World)
  | 0, w, buf => .ok ([], buf, w)
  | n + 1, w, buf =>
    match readdir_callback k w fi buf offset with
    | .error e => .error e
    | .ok (c, buf, w) =>
      match readdir_calls k fi offset n w buf with
      | .error e => .error e
      | .ok (cs, buf, w) => .ok (c :: cs, buf, w)

/-- What `filler` receives of a directory entry: its name and its offset. -/
def entry_of (d : Dirent) : CStr × Int := (d.d_name, d.d_off)

/-- The file-info points to a block that has room for the field `os_dirh`,
which holds the open stream `dirp`; the stream reads the entries `es`, stands
at `cursor` and does not fail. -/
def dir_at (k : Consts) (w : World) (fi : fuse_file_info) (dirp : Nat) (es : List Dirent)
    (cursor : Nat) : Prop :=
  fi.fh ≠ 0 ∧ dirp ≠ 0 ∧
    (∃ b, w.heap fi.fh = some b ∧ k.sizeof_ptr ≤ b.size ∧ b.val.os_dirh = dirp) ∧
    w.dirs dirp = some ⟨es, cursor, none⟩

/-- How a run stopped, when it did not return. -/
def fault_of {α : Type} (r : Run α) : Option Fault :=
  match r with
  | .ok _ => none
  | .error (f, _) => some f

/-- The positioned read the specification describes: the bytes of the file
from byte `offset` on, `size` of them at most. -/
def pread_spec (data : List Nat) (size offset : Nat) : List Nat :=
  (data.drop offset).take size

/-- The state a callback leaves, whether it returned or ended the process. -/
def final_world {α β : Type} (r : Run (α × β × World)) : World :=
  match r with
  | .ok (_, _, w) => w
  | .error (_, w) => w

/-! ## A concrete configuration

The scenario of the specification: the base directory `/data` holds `a.txt`
with the bytes of `hello`, and the default file `/data/.default` holds the
bytes of `fallback`. -/

/-- The constants as Linux defines them on a 64-bit machine, where a
`deffs_handle` takes 16 bytes: the pointer `os_dirh` at offset 0 and the `int`
`os_fh` at offset 8. -/
def linux : Consts :=
  { ENOENT := 2, EINVAL := 22, EPERM := 1, EBADF := 9, O_WRONLY := 1, O_RDWR := 2,
    O_CREAT := 64, O_EXCL := 128, O_TRUNC := 512, sizeof_ptr := 8, sizeof_int := 4,
    offsetof_os_fh := 8 }

/-- Base directory `/data`, default file `/data/.default`. -/
def demo_cfg : Config := ⟨some "/data".toList, some "/data/.default".toList⟩

/-- Bytes of a string of ASCII characters. -/
def bytes_of (s : String) : List Nat := s.toList.map Char.toNat

/-- A filesystem with `/data/a.txt`, `/data/.default`, an unreadable
`/data/secret`, a file `/data/bad` on which reads fail with `EIO`, and the
directory `/data/`. -/
def demo_fs : FS where
  lstat p :=
    if p = some "/data/a.txt".toList then .ok ⟨11, 33188, 5⟩
    else if p = some "/data/.default".toList then .ok ⟨12, 33188, 8⟩
    else if p = some "/data/secret".toList then .error 13
    else .error 2
  sopen p _ :=
    if p = some "/data/a.txt".toList then .ok ⟨bytes_of "hello", none⟩
    else if p = some "/data/.default".toList then .ok ⟨bytes_of "fallback", none⟩
    else if p = some "/data/bad".toList then .ok ⟨[], some 5⟩
    else if p = some "/data/secret".toList then .error 13
    else .error 2
  opendir p :=
    if p = some "/data/".toList then
      .ok ⟨[⟨".".toList, 1⟩, ⟨"..".toList, 2⟩, ⟨"a.txt".toList, 3⟩], none⟩
    else if p = some "/data/a.txt".toList then .error 20
    else .error 2

/-- A process that has not opened anything yet, on an allocator whose blocks
are good for 16 bytes more than asked, so that the 8 bytes asked for a handle
come as a block of 24. -/
def demo_world : World :=
  { fs := demo_fs, mallocOk := fun _ => true, slack := fun _ => 16, errno := 0,
    fds := fun _ => none, nextfd := 3, dirs := fun _ => none, nextdir := 0,
    heap := fun _ => none, brk := 0, trace := [] }

/-- The same process on an allocator whose blocks are good for exactly the
bytes asked. -/
def demo_world_exact : World := { demo_world with slack := fun _ => 0 }

/-- The same process when no allocation succeeds. -/
def demo_world_oom : World := { demo_world with mallocOk := fun _ => false }

/-! ## Path translation -/

theorem charAt_last (B : CStr) (hB : B ≠ []) :
    (charAt B (strlen B - 1) = '/') ↔ B.getLast? = some '/' := by
  unfold charAt strlen
  rw [List.getLast?_eq_getLast _ hB, List.getLast_eq_getElem]
  have hlt : B.length - 1 < B.length := by
    have := List.length_pos.mpr hB
    omega
  simp [List.getD, List.getElem?_eq_getElem hlt]

theorem charAt_zero (P : CStr) (hP : P ≠ []) :
    (charAt P 0 = '/') ↔ P.head? = some '/' := by
  cases P with
  | nil => exact absurd rfl hP
  | cons c t => simp [charAt]

theorem skip_slashes_eq_dropWhile (P : CStr) :
    skip_slashes P = P.dropWhile (· = '/') := by
  induction P with
  | nil => rfl
  | cons c t ih =>
    by_cases h : c = '/'
    · simp [skip_slashes, h, ih]
    · simp [skip_slashes, h]

theorem skip_slashes_eq_drop (P : CStr) :
    skip_slashes P = P.drop (skip_count P) ∧ skip_count P ≤ strlen P := by
  induction P with
  | nil => exact ⟨rfl, Nat.le_refl _⟩
  | cons c t ih =>
    by_cases h : c = '/'
    · simp only [skip_slashes, skip_count, h, if_true, List.drop_succ_cons, strlen,
        List.length_cons]
      exact ⟨ih.1, Nat.succ_le_succ ih.2⟩
    · simp [skip_slashes, skip_count, h]

theorem skip_slashes_suffix (P : CStr) : skip_slashes P <:+ P := by
  rw [(skip_slashes_eq_drop P).1]
  exact List.drop_suffix _ _

theorem dropLast_append_slash (B : CStr) (h : B.getLast? = some '/') :
    B.dropLast ++ ['/'] = B := by
  have hB : B ≠ [] := by
    intro e
    simp [e] at h
  rw [List.getLast?_eq_getLast _ hB] at h
  have h2 : B.getLast hB = '/' := Option.some.inj h
  have := List.dropLast_append_getLast hB
  rw [h2] at this
  exact this

theorem slash_cons_tail (P : CStr) (h : P.head? = some '/') : '/' :: P.tail = P := by
  cases P with
  | nil => simp at h
  | cons c t =>
    simp at h
    simp [h]

/-- The three branches of `concat_path` on non-empty inputs. -/
theorem concat_path_cases (mallocOk : Nat → Bool) (B P : CStr) (hB : B ≠ []) (hP : P ≠ [])
    (hm : mallocOk (strlen B + strlen P + 2) = true) :
    concat_path mallocOk (some B) (some P) =
      .ok (some (if B.getLast? ≠ some '/' ∧ P.head? ≠ some '/' then (B ++ ['/']) ++ P
        else if B.getLast? = some '/' then B ++ skip_slashes P else B ++ P)) := by
  have h1 : strlen B ≠ 0 := by simpa [strlen] using hB
  have h2 : strlen P ≠ 0 := by simpa [strlen] using hP
  simp only [concat_path, h1, h2, or_self, if_false, hm, Bool.true_eq_false, ne_eq,
    charAt_last B hB, charAt_zero P hP]
  split_ifs <;> rfl

/-- On non-empty inputs `concat_path` returns the join `code_join`. -/
theorem concat_path_ok (mallocOk : Nat → Bool) (B P : CStr) (hB : B ≠ []) (hP : P ≠ [])
    (hm : mallocOk (strlen B + strlen P + 2) = true) :
    concat_path mallocOk (some B) (some P) = .ok (some (code_join B P)) := by
  rw [concat_path_cases mallocOk B P hB hP hm]
  unfold code_join
  by_cases h1 : B.getLast? = some '/'
  · have := dropLast_append_slash B h1
    simp [h1, this, skip_slashes_eq_dropWhile]
  · by_cases h2 : P.head? = some '/'
    · have := slash_cons_tail P h2
      simp [h1, h2, this]
    · simp [h1, h2]

/-- C2, as the code has it: for non-empty `B` and `P` (and a successful
allocation) `concat_path` returns `B'`, one `'/'` and `P'`, where `B'` is `B`
without its final `'/'`, and `P'` is `P` without all its leading `'/'` when `B`
ends in `'/'`, and without at most one of them otherwise. The join of the
specification is what results whenever `B` ends in `'/'` or `P` does not start
with two `'/'`. -/
theorem concat_path_code_join (mallocOk : Nat → Bool) (B P : CStr) (hB : B ≠ [])
    (hP : P ≠ []) (hm : mallocOk (strlen B + strlen P + 2) = true) :
    concat_path mallocOk (some B) (some P) = .ok (some (code_join B P)) ∧
    ((B.getLast? = some '/' ∨ ¬ ['/', '/'] <+: P) → code_join B P = spec_join B P) := by
  refine ⟨concat_path_ok mallocOk B P hB hP hm, ?_⟩
  · intro h
    unfold code_join spec_join
    by_cases h1 : B.getLast? = some '/'
    · simp [h1]
    · have h3 : ¬ ['/', '/'] <+: P := h.resolve_left h1
      simp only [h1, if_false]
      congr 1
      cases P with
      | nil => exact absurd rfl hP
      | cons c t =>
        by_cases hc : c = '/'
        · subst hc
          cases t with
          | nil => simp
          | cons d u =>
            by_cases hd : d = '/'
            · subst hd
              exact absurd (List.prefix_append ['/', '/'] u) h3
            · simp [hd]
        · simp [hc]

theorem concat_path_code_join_witness :
    concat_path (fun _ => true) (some "/data/".toList) (some "//a.txt".toList)
        = .ok (some (code_join "/data/".toList "//a.txt".toList)) ∧
    (("/data/".toList.getLast? = some '/' ∨ ¬ ['/', '/'] <+: "//a.txt".toList) →
      code_join "/data/".toList "//a.txt".toList = spec_join "/data/".toList "//a.txt".toList) :=
  concat_path_code_join (fun _ => true) "/data/".toList "//a.txt".toList (by decide) (by decide) rfl

/-- C2 fails as stated: for the base `/data` and the virtual path `//a`,
`concat_path` returns `/data//a`, while the join with exactly one separator and
all leading separators of the virtual path removed is `/data/a`. -/
theorem concat_path_keeps_leading_slashes :
    concat_path (fun _ => true) (some "/data".toList) (some "//a".toList)
        = .ok (some "/data//a".toList) ∧
    spec_join "/data".toList "//a".toList = "/data/a".toList ∧
    concat_path (fun _ => true) (some "/data".toList) (some "//a".toList)
        ≠ .ok (some (spec_join "/data".toList "//a".toList)) := by
  decide

/-- C10: for non-empty `B` and `P` the string `concat_path` builds has length at
most `len B + len P + 1`, so with its terminator it fits in the
`len B + len P + 2` bytes allocated; it has `B` as a prefix and ends with `P`
stripped of its leading `'/'`; and the loop skipping the leading `'/'` of `P`
stops after at most `len P` steps, for every `P`. -/
theorem concat_path_fits (mallocOk : Nat → Bool) (B P : CStr) (hB : B ≠ []) (hP : P ≠ [])
    (hm : mallocOk (strlen B + strlen P + 2) = true) :
    (∃ r, concat_path mallocOk (some B) (some P) = .ok (some r) ∧
      strlen r ≤ strlen B + strlen P + 1 ∧
      strlen r + 1 ≤ strlen B + strlen P + 2 ∧
      B <+: r ∧ P.dropWhile (· = '/') <:+ r) ∧
    (∀ Q : CStr, skip_slashes Q = Q.drop (skip_count Q) ∧ skip_count Q ≤ strlen Q ∧
      skip_slashes Q = Q.dropWhile (· = '/')) := by
  refine ⟨?_, fun Q => ⟨(skip_slashes_eq_drop Q).1, (skip_slashes_eq_drop Q).2,
    skip_slashes_eq_dropWhile Q⟩⟩
  rw [concat_path_cases mallocOk B P hB hP hm]
  have hs := skip_slashes_suffix P
  have hl : strlen (skip_slashes P) ≤ strlen P := hs.length_le
  rw [← skip_slashes_eq_dropWhile]
  split_ifs with h1 h2
  · refine ⟨_, rfl, ?_, ?_, ?_, ?_⟩
    · simp only [strlen, List.length_append, List.length_singleton]
      omega
    · simp only [strlen, List.length_append, List.length_singleton]
      omega
    · rw [List.append_assoc]
      exact List.prefix_append _ _
    · exact hs.trans (List.suffix_append _ _)
  · refine ⟨_, rfl, ?_, ?_, List.prefix_append _ _, List.suffix_append _ _⟩
    · simp only [strlen, List.length_append] at hl ⊢
      omega
    · simp only [strlen, List.length_append] at hl ⊢
      omega
  · refine ⟨_, rfl, ?_, ?_, List.prefix_append _ _, hs.trans (List.suffix_append _ _)⟩
    · simp [strlen]
    · simp [strlen]

theorem concat_path_fits_witness :
    (∃ r, concat_path (fun _ => true) (some "/data/".toList) (some "///".toList) = .ok (some r) ∧
      strlen r ≤ strlen "/data/".toList + strlen "///".toList + 1 ∧
      strlen r + 1 ≤ strlen "/data/".toList + strlen "///".toList + 2 ∧
      "/data/".toList <+: r ∧ "///".toList.dropWhile (· = '/') <:+ r) ∧
    (∀ Q : CStr, skip_slashes Q = Q.drop (skip_count Q) ∧ skip_count Q ≤ strlen Q ∧
      skip_slashes Q = Q.dropWhile (· = '/')) :=
  concat_path_fits (fun _ => true) "/data/".toList "///".toList (by decide) (by decide) rfl

/-- Translation of a non-empty virtual path under a non-empty base. -/
theorem translate_path_ok (cfg : Config) (w : World) (B P : CStr)
    (hbase : cfg.basepath = some B) (hB : B ≠ []) (hP : P ≠ [])
    (hm : w.mallocOk (strlen B + strlen P + 2) = true) :
    translate_path cfg w (some P) = .ok (some (code_join B P)) := by
  unfold translate_path
  rw [hbase]
  exact concat_path_ok w.mallocOk B P hB hP hm

/-- Translation when an input is `NULL` or empty: the assertion fails. -/
theorem translate_path_abort (cfg : Config) (w : World) (path : Option CStr)
    (h : path = none ∨ path = some [] ∨ cfg.basepath = none ∨ cfg.basepath = some []) :
    translate_path cfg w path = .error .assert_fail := by
  unfold translate_path concat_path
  rcases h with h | h | h | h
  · subst h
    cases cfg.basepath <;> rfl
  · subst h
    cases cfg.basepath <;> simp [strlen]
  · rw [h]
  · rw [h]
    cases path <;> simp [strlen]

/-- Translation when the allocation fails: `NULL`. -/
theorem translate_path_null (cfg : Config) (w : World) (B P : CStr)
    (hbase : cfg.basepath = some B) (hB : B ≠ []) (hP : P ≠ [])
    (hm : w.mallocOk (strlen B + strlen P + 2) = false) :
    translate_path cfg w (some P) = .ok none := by
  have h1 : strlen B ≠ 0 := by simpa [strlen] using hB
  have h2 : strlen P ≠ 0 := by simpa [strlen] using hP
  simp [translate_path, concat_path, hbase, h1, h2, hm]

/-! ## Attribute lookup -/

/-- C4: for a non-empty virtual path (under a non-empty base, the path buffer
allocated), `getattr_callback` returns 0 and the metadata of the translated
path when `lstat` on it succeeds; when that `lstat` fails with `ENOENT` it
returns the outcome of `lstat` on the default file, 0 with its metadata or
minus its error code; and when the first `lstat` fails with another error `e`
it returns `-e`, the only call issued being the `lstat` of the translated
path. -/
theorem getattr_callback_fallback (k : Consts) (cfg : Config) (w : World) (B P : CStr)
    (stbuf : Stat) (hbase : cfg.basepath = some B) (hB : B ≠ []) (hP : P ≠ [])
    (hm : w.mallocOk (strlen B + strlen P + 2) = true) :
    (∀ st, w.fs.lstat (some (code_join B P)) = .ok st →
      getattr_callback k cfg w (some P) stbuf =
        .ok (0, st, { w with errno := 0,
                             trace := w.trace ++ [Syscall.lstat (some (code_join B P))] })) ∧
    (w.fs.lstat (some (code_join B P)) = .error k.ENOENT →
      (∀ st, w.fs.lstat cfg.deffile = .ok st →
        getattr_callback k cfg w (some P) stbuf =
          .ok (0, st, { w with errno := 0,
                               trace := w.trace ++ [Syscall.lstat (some (code_join B P))] ++
                                 [Syscall.lstat cfg.deffile] })) ∧
      (∀ e, w.fs.lstat cfg.deffile = .error e →
        getattr_callback k cfg w (some P) stbuf =
          .ok (-(e : Int), Stat.zero,
               { w with errno := e,
                        trace := w.trace ++ [Syscall.lstat (some (code_join B P))] ++
                          [Syscall.lstat cfg.deffile] }))) ∧
    (∀ e, e ≠ k.ENOENT → w.fs.lstat (some (code_join B P)) = .error e →
      getattr_callback k cfg w (some P) stbuf =
        .ok (-(e : Int), Stat.zero,
             { w with errno := e,
                      trace := w.trace ++ [Syscall.lstat (some (code_join B P))] })) := by
  have ht := translate_path_ok cfg w B P hbase hB hP hm
  refine ⟨?_, ?_, ?_⟩
  · intro st h
    simp [getattr_callback, ht, sys_lstat, h]
  · intro h
    refine ⟨?_, ?_⟩
    · intro st h2
      simp [getattr_callback, ht, sys_lstat, h, h2]
    · intro e h2
      simp [getattr_callback, ht, sys_lstat, h, h2]
  · intro e he h
    simp [getattr_callback, ht, sys_lstat, h, he]

theorem getattr_callback_fallback_witness :
    demo_cfg.basepath = some "/data".toList ∧ "/data".toList ≠ [] ∧ "/missing.txt".toList ≠ [] ∧
    demo_world.mallocOk (strlen "/data".toList + strlen "/missing.txt".toList + 2) = true ∧
    observe (getattr_callback linux demo_cfg demo_world (some "/missing.txt".toList) Stat.zero) =
      some (0, ⟨12, 33188, 8⟩,
        [Syscall.lstat (some "/data/missing.txt".toList), Syscall.lstat demo_cfg.deffile]) :=
  ⟨rfl, by decide, by decide, rfl, by
    rw [((getattr_callback_fallback linux demo_cfg demo_world "/data".toList "/missing.txt".toList
      Stat.zero rfl (by decide) (by decide) rfl).2.1 (by decide)).1 ⟨12, 33188, 8⟩ (by decide)]
    decide⟩

/-! ## Opening files -/

/-- C3: for a non-empty virtual path (under a non-empty base, the path buffer
allocated), whatever the filesystem holds, a flags word with one of `O_WRONLY`,
`O_RDWR`, `O_CREAT`, `O_EXCL`, `O_TRUNC` set makes `open_callback` return
`-EPERM` with the process state and the file-info unchanged: no call to the
filesystem is made and no handle is created. -/
theorem open_callback_write_denied (k : Consts) (cfg : Config) (w : World) (B P : CStr)
    (fi : fuse_file_info) (hbase : cfg.basepath = some B) (hB : B ≠ []) (hP : P ≠ [])
    (hm : w.mallocOk (strlen B + strlen P + 2) = true)
    (hf : fi.flags &&& k.O_WRONLY ≠ 0 ∨ fi.flags &&& k.O_RDWR ≠ 0 ∨ fi.flags &&& k.O_CREAT ≠ 0 ∨
      fi.flags &&& k.O_EXCL ≠ 0 ∨ fi.flags &&& k.O_TRUNC ≠ 0) :
    open_callback k cfg w (some P) fi = .ok (-(k.EPERM : Int), fi, w) ∧
    ∀ c fi1 w1, open_callback k cfg w (some P) fi = .ok (c, fi1, w1) →
      c = -(k.EPERM : Int) ∧ w1.trace = w.trace ∧ w1.heap = w.heap ∧ w1.fds = w.fds ∧
        fi1.fh = fi.fh := by
  have ht := translate_path_ok cfg w B P hbase hB hP hm
  have h : open_callback k cfg w (some P) fi = .ok (-(k.EPERM : Int), fi, w) := by
    simp only [open_callback, ht]
    rw [if_pos hf]
  refine ⟨h, ?_⟩
  intro c fi1 w1 h2
  rw [h] at h2
  injection h2 with h2
  injection h2 with hc h2
  injection h2 with hfi hw
  subst hc hfi hw
  exact ⟨rfl, rfl, rfl, rfl, rfl⟩

theorem open_callback_write_denied_witness :
    demo_cfg.basepath = some "/data".toList ∧ "/data".toList ≠ [] ∧ "/missing.txt".toList ≠ [] ∧
    demo_world.mallocOk (strlen "/data".toList + strlen "/missing.txt".toList + 2) = true ∧
    (1 &&& linux.O_WRONLY ≠ 0 ∨ 1 &&& linux.O_RDWR ≠ 0 ∨ 1 &&& linux.O_CREAT ≠ 0 ∨
      1 &&& linux.O_EXCL ≠ 0 ∨ 1 &&& linux.O_TRUNC ≠ 0) ∧
    open_callback linux demo_cfg demo_world (some "/missing.txt".toList) ⟨1, 0⟩ =
      .ok (-(linux.EPERM : Int), ⟨1, 0⟩, demo_world) :=
  ⟨rfl, by decide, by decide, rfl, by decide,
    (open_callback_write_denied linux demo_cfg demo_world "/data".toList "/missing.txt".toList
      ⟨1, 0⟩ rfl (by decide) (by decide) rfl (by decide)).1⟩

/-- The flag test of `open_callback` fails when no write-intent bit is set. -/
theorem write_bits_clear (k : Consts) (flags : Nat)
    (hf : flags &&& k.O_WRONLY = 0 ∧ flags &&& k.O_RDWR = 0 ∧ flags &&& k.O_CREAT = 0 ∧
      flags &&& k.O_EXCL = 0 ∧ flags &&& k.O_TRUNC = 0) :
    ¬ (flags &&& k.O_WRONLY ≠ 0 ∨ flags &&& k.O_RDWR ≠ 0 ∨ flags &&& k.O_CREAT ≠ 0 ∨
      flags &&& k.O_EXCL ≠ 0 ∨ flags &&& k.O_TRUNC ≠ 0) := by
  obtain ⟨h1, h2, h3, h4, h5⟩ := hf
  simp [h1, h2, h3, h4, h5]

theorem natCast_ne_neg_one (n : Nat) : (n : Int) ≠ -1 := by omega

/-! ## Handles -/

theorem update_same {α : Type} (m : Nat → Option α) (a : Nat) (v : Option α) :
    update m a v a = v := by
  simp [update]

theorem update_update {α : Type} (m : Nat → Option α) (a : Nat) (v v2 : Option α) :
    update (update m a v) a v2 = update m a v2 := by
  funext n
  by_cases h : n = a <;> simp [update, h]

/-- When the block handed out for `sizeof hdl` bytes has room for the field
`os_fh` as well, `alloc_handle` returns a handle with both fields cleared. -/
theorem alloc_handle_roomy (k : Consts) (w : World) (fi : fuse_file_info)
    (hma : w.mallocOk k.sizeof_ptr = true)
    (hroom : k.offsetof_os_fh + k.sizeof_int ≤ k.sizeof_ptr + w.slack k.sizeof_ptr) :
    alloc_handle k w fi =
      .ok (w.brk + 1, { fi with fh := w.brk + 1 },
        { w with heap := update w.heap (w.brk + 1)
                   (some ⟨k.sizeof_ptr + w.slack k.sizeof_ptr, ⟨0, -1⟩⟩),
                 brk := w.brk + 1 }) := by
  simp [alloc_handle, hma, store_os_dirh, store_os_fh, update_same, update_update, hroom]

/-- When the block handed out for `sizeof hdl` bytes ends before the field
`os_fh` does, the store `hdl->os_fh = -1` of `alloc_handle` is outside it. -/
theorem alloc_handle_out_of_bounds (k : Consts) (w : World) (fi : fuse_file_info)
    (hma : w.mallocOk k.sizeof_ptr = true)
    (hsmall : k.sizeof_ptr + w.slack k.sizeof_ptr < k.offsetof_os_fh + k.sizeof_int) :
    alloc_handle k w fi =
      .error (Fault.out_of_bounds,
        { w with heap := update w.heap (w.brk + 1)
                   (some ⟨k.sizeof_ptr + w.slack k.sizeof_ptr, ⟨0, 0⟩⟩),
                 brk := w.brk + 1 }) := by
  have h : ¬ (k.offsetof_os_fh + k.sizeof_int ≤ k.sizeof_ptr + w.slack k.sizeof_ptr) := by omega
  simp [alloc_handle, hma, store_os_dirh, store_os_fh, update_same, update_update, h]

/-- An allocator that hands out exactly the bytes asked gives `alloc_handle` a
block too small for `os_fh`, whatever the layout: the field follows the
pointer `os_dirh` and is not empty. -/
theorem alloc_handle_exact (k : Consts) (w : World) (fi : fuse_file_info)
    (hma : w.mallocOk k.sizeof_ptr = true) (hs : w.slack k.sizeof_ptr = 0)
    (hlay : k.sizeof_ptr ≤ k.offsetof_os_fh) (hint : 0 < k.sizeof_int) :
    fault_of (alloc_handle k w fi) = some Fault.out_of_bounds := by
  rw [alloc_handle_out_of_bounds k w fi hma (by omega)]
  rfl


/-- The paths of `open_callback` that end in an error of `open`: a first
failure with an error `e` other than `ENOENT` gives `-e` after one `open`; a
first failure with `ENOENT` followed by a failure of the open of the default
file with `e` gives `-e` after the two opens, the second with the same flags. -/
theorem open_callback_errors (k : Consts) (cfg : Config) (w : World) (B P : CStr)
    (fi : fuse_file_info) (hbase : cfg.basepath = some B) (hB : B ≠ []) (hP : P ≠ [])
    (hm : w.mallocOk (strlen B + strlen P + 2) = true)
    (hf : fi.flags &&& k.O_WRONLY = 0 ∧ fi.flags &&& k.O_RDWR = 0 ∧ fi.flags &&& k.O_CREAT = 0 ∧
      fi.flags &&& k.O_EXCL = 0 ∧ fi.flags &&& k.O_TRUNC = 0) :
    (∀ e, e ≠ k.ENOENT → w.fs.sopen (some (code_join B P)) fi.flags = .error e →
      open_callback k cfg w (some P) fi =
        .ok (-(e : Int), fi,
          { w with errno := e,
                   trace := w.trace ++ [Syscall.sopen (some (code_join B P)) fi.flags] })) ∧
    (w.fs.sopen (some (code_join B P)) fi.flags = .error k.ENOENT →
      ∀ e, w.fs.sopen cfg.deffile fi.flags = .error e →
        open_callback k cfg w (some P) fi =
          .ok (-(e : Int), fi,
            { w with errno := e,
                     trace := w.trace ++ [Syscall.sopen (some (code_join B P)) fi.flags] ++
                       [Syscall.sopen cfg.deffile fi.flags] })) := by
  have ht := translate_path_ok cfg w B P hbase hB hP hm
  have hnf := write_bits_clear k fi.flags hf
  refine ⟨?_, ?_⟩
  · intro e he h
    simp only [open_callback, ht]
    rw [if_neg hnf]
    simp [sys_open, h, he]
  · intro h e h2
    simp only [open_callback, ht]
    rw [if_neg hnf]
    simp [sys_open, h, h2]

/-- The paths of `open_callback` on which an `open` succeeded, when the block
of the handle has room for `os_fh`: the result is 0 and the handle holds the
descriptor just opened, that of the translated path or, after `ENOENT`, that
of the default file. -/
theorem open_callback_roomy (k : Consts) (cfg : Config) (w : World) (B P : CStr)
    (fi : fuse_file_info) (hbase : cfg.basepath = some B) (hB : B ≠ []) (hP : P ≠ [])
    (hm : w.mallocOk (strlen B + strlen P + 2) = true)
    (hf : fi.flags &&& k.O_WRONLY = 0 ∧ fi.flags &&& k.O_RDWR = 0 ∧ fi.flags &&& k.O_CREAT = 0 ∧
      fi.flags &&& k.O_EXCL = 0 ∧ fi.flags &&& k.O_TRUNC = 0)
    (hma : w.mallocOk k.sizeof_ptr = true)
    (hroom : k.offsetof_os_fh + k.sizeof_int ≤ k.sizeof_ptr + w.slack k.sizeof_ptr) :
    (∀ f, w.fs.sopen (some (code_join B P)) fi.flags = .ok f →
      ∃ w1, open_callback k cfg w (some P) fi = .ok (0, { fi with fh := w.brk + 1 }, w1) ∧
        w1.heap (w.brk + 1) =
          some ⟨k.sizeof_ptr + w.slack k.sizeof_ptr, ⟨0, (w.nextfd : Int)⟩⟩ ∧
        w1.fds w.nextfd = some ⟨f.data, 0, f.fail⟩ ∧
        w1.trace = w.trace ++ [Syscall.sopen (some (code_join B P)) fi.flags]) ∧
    (w.fs.sopen (some (code_join B P)) fi.flags = .error k.ENOENT →
      ∀ f, w.fs.sopen cfg.deffile fi.flags = .ok f →
        ∃ w1, open_callback k cfg w (some P) fi = .ok (0, { fi with fh := w.brk + 1 }, w1) ∧
          w1.heap (w.brk + 1) =
            some ⟨k.sizeof_ptr + w.slack k.sizeof_ptr, ⟨0, (w.nextfd : Int)⟩⟩ ∧
          w1.fds w.nextfd = some ⟨f.data, 0, f.fail⟩ ∧
          w1.trace = w.trace ++ [Syscall.sopen (some (code_join B P)) fi.flags] ++
            [Syscall.sopen cfg.deffile fi.flags]) := by
  have ht := translate_path_ok cfg w B P hbase hB hP hm
  have hnf := write_bits_clear k fi.flags hf
  refine ⟨?_, ?_⟩
  · intro f h
    simp only [open_callback, ht]
    rw [if_neg hnf]
    simp only [sys_open, h, natCast_ne_neg_one, false_and, if_false]
    simp only [alloc_handle_roomy, hma, hroom, store_os_fh, update_same, if_true, update_update]
    exact ⟨_, rfl, by simp [update], by simp [update], by simp⟩
  · intro h f h2
    simp only [open_callback, ht]
    rw [if_neg hnf]
    simp only [sys_open, h, h2, natCast_ne_neg_one, and_self, if_true, false_and, if_false]
    simp only [alloc_handle_roomy, hma, hroom, store_os_fh, update_same, if_true, update_update]
    exact ⟨_, rfl, by simp [update], by simp [update], by simp⟩

/-- The paths of `open_callback` on which an `open` succeeded, when the block
of the handle ends before `os_fh` does: the run stops in `alloc_handle`, at the
store `hdl->os_fh = -1`, with the descriptor open and held by no handle. -/
theorem open_callback_out_of_bounds (k : Consts) (cfg : Config) (w : World) (B P : CStr)
    (fi : fuse_file_info) (hbase : cfg.basepath = some B) (hB : B ≠ []) (hP : P ≠ [])
    (hm : w.mallocOk (strlen B + strlen P + 2) = true)
    (hf : fi.flags &&& k.O_WRONLY = 0 ∧ fi.flags &&& k.O_RDWR = 0 ∧ fi.flags &&& k.O_CREAT = 0 ∧
      fi.flags &&& k.O_EXCL = 0 ∧ fi.flags &&& k.O_TRUNC = 0)
    (hma : w.mallocOk k.sizeof_ptr = true)
    (hsmall : k.sizeof_ptr + w.slack k.sizeof_ptr < k.offsetof_os_fh + k.sizeof_int) :
    (∀ f, w.fs.sopen (some (code_join B P)) fi.flags = .ok f →
      ∃ w1, open_callback k cfg w (some P) fi = .error (Fault.out_of_bounds, w1) ∧
        w1.fds w.nextfd = some ⟨f.data, 0, f.fail⟩ ∧
        w1.trace = w.trace ++ [Syscall.sopen (some (code_join B P)) fi.flags]) ∧
    (w.fs.sopen (some (code_join B P)) fi.flags = .error k.ENOENT →
      ∀ f, w.fs.sopen cfg.deffile fi.flags = .ok f →
        ∃ w1, open_callback k cfg w (some P) fi = .error (Fault.out_of_bounds, w1) ∧
          w1.fds w.nextfd = some ⟨f.data, 0, f.fail⟩ ∧
          w1.trace = w.trace ++ [Syscall.sopen (some (code_join B P)) fi.flags] ++
            [Syscall.sopen cfg.deffile fi.flags]) := by
  have ht := translate_path_ok cfg w B P hbase hB hP hm
  have hnf := write_bits_clear k fi.flags hf
  refine ⟨?_, ?_⟩
  · intro f h
    simp only [open_callback, ht]
    rw [if_neg hnf]
    simp only [sys_open, h, natCast_ne_neg_one, false_and, if_false]
    simp only [alloc_handle_out_of_bounds, hma, hsmall]
    exact ⟨_, rfl, by simp [update], by simp⟩
  · intro h f h2
    simp only [open_callback, ht]
    rw [if_neg hnf]
    simp only [sys_open, h, h2, natCast_ne_neg_one, and_self, if_true, false_and, if_false]
    simp only [alloc_handle_out_of_bounds, hma, hsmall]
    exact ⟨_, rfl, by simp [update], by simp⟩

/-- C5 at a failing input: on an allocator that hands out exactly the bytes
asked, `open_callback` with flags 0 on `/a.txt`, which exists, opens
`/data/a.txt` and then stops in `alloc_handle`, whose block of `sizeof hdl` = 8
bytes ends before the field `os_fh` (bytes 8 to 11) that it stores to: it does
not return 0 and no handle holds the descriptor. The same happens on
`/missing.txt` after the fallback open of the default file. -/
theorem open_callback_handle_out_of_bounds :
    fault_of (open_callback linux demo_cfg demo_world_exact (some "/a.txt".toList) ⟨0, 0⟩) =
      some Fault.out_of_bounds ∧
    observe (open_callback linux demo_cfg demo_world_exact (some "/a.txt".toList) ⟨0, 0⟩) =
      none ∧
    (final_world (open_callback linux demo_cfg demo_world_exact (some "/a.txt".toList)
      ⟨0, 0⟩)).trace = [Syscall.sopen (some "/data/a.txt".toList) 0] ∧
    (final_world (open_callback linux demo_cfg demo_world_exact (some "/a.txt".toList)
      ⟨0, 0⟩)).heap 1 = some ⟨8, ⟨0, 0⟩⟩ ∧
    fault_of (open_callback linux demo_cfg demo_world_exact (some "/missing.txt".toList)
      ⟨0, 0⟩) = some Fault.out_of_bounds ∧
    (final_world (open_callback linux demo_cfg demo_world_exact (some "/missing.txt".toList)
      ⟨0, 0⟩)).trace =
      [Syscall.sopen (some "/data/missing.txt".toList) 0, Syscall.sopen demo_cfg.deffile 0] ∧
    linux.sizeof_ptr + demo_world_exact.slack linux.sizeof_ptr = 8 ∧
    linux.offsetof_os_fh + linux.sizeof_int = 12 := by
  decide

/-! ## Empty and unset paths -/

/-- C9, as the code has it: when the virtual path or the base path is `NULL` or
empty, `translate_path` yields no path because the assertion of `concat_path`
fails, and `getattr_callback`, `open_callback` and `opendir_callback` end the
process there, in the state they were entered in (nothing of the filesystem is
touched) and without returning a code. They return `-EINVAL`, again leaving the
state untouched, when both paths are non-empty and the allocation of the path
buffer fails. -/
theorem translate_path_empty_aborts (k : Consts) (cfg : Config) (w : World)
    (path : Option CStr) (fi : fuse_file_info) (stbuf : Stat)
    (h : path = none ∨ path = some [] ∨ cfg.basepath = none ∨ cfg.basepath = some []) :
    (translate_path cfg w path = .error .assert_fail ∧
      getattr_callback k cfg w path stbuf = .error (.assert_fail, w) ∧
      open_callback k cfg w path fi = .error (.assert_fail, w) ∧
      opendir_callback k cfg w path fi = .error (.assert_fail, w)) ∧
    (∀ (w2 : World) (cfg2 : Config) (B P : CStr), cfg2.basepath = some B → B ≠ [] → P ≠ [] →
      w2.mallocOk (strlen B + strlen P + 2) = false →
      translate_path cfg2 w2 (some P) = .ok none ∧
      getattr_callback k cfg2 w2 (some P) stbuf = .ok (-(k.EINVAL : Int), stbuf, w2) ∧
      open_callback k cfg2 w2 (some P) fi = .ok (-(k.EINVAL : Int), fi, w2) ∧
      opendir_callback k cfg2 w2 (some P) fi = .ok (-(k.EINVAL : Int), fi, w2)) := by
  refine ⟨?_, ?_⟩
  · have ht := translate_path_abort cfg w path h
    refine ⟨ht, ?_, ?_, ?_⟩
    · simp [getattr_callback, ht]
    · simp [open_callback, ht]
    · simp [opendir_callback, ht]
  · intro w2 cfg2 B P hbase hB hP hm
    have ht := translate_path_null cfg2 w2 B P hbase hB hP hm
    refine ⟨ht, ?_, ?_, ?_⟩
    · simp [getattr_callback, ht]
    · simp [open_callback, ht]
    · simp [opendir_callback, ht]

theorem translate_path_empty_aborts_witness :
    ((some [] : Option CStr) = none ∨ (some [] : Option CStr) = some [] ∨
      demo_cfg.basepath = none ∨ demo_cfg.basepath = some []) ∧
    open_callback linux demo_cfg demo_world (some []) ⟨0, 0⟩ =
      .error (Fault.assert_fail, demo_world) ∧
    open_callback linux demo_cfg demo_world_oom (some "/a.txt".toList) ⟨0, 0⟩ =
      .ok (-(linux.EINVAL : Int), ⟨0, 0⟩, demo_world_oom) :=
  ⟨by decide,
    (translate_path_empty_aborts linux demo_cfg demo_world (some []) ⟨0, 0⟩ Stat.zero
      (by decide)).1.2.2.1,
    ((translate_path_empty_aborts linux demo_cfg demo_world (some []) ⟨0, 0⟩ Stat.zero
      (by decide)).2 demo_world_oom demo_cfg "/data".toList "/a.txt".toList rfl (by decide)
      (by decide) rfl).2.2.1⟩

/-- C9 fails as stated: on the empty virtual path `getattr_callback`,
`open_callback` and `opendir_callback` do not return `-EINVAL`; the assertion
of `concat_path` ends the process. -/
theorem empty_path_is_not_einval :
    observe (getattr_callback linux demo_cfg demo_world (some []) Stat.zero) = none ∧
    observe (open_callback linux demo_cfg demo_world (some []) ⟨0, 0⟩) = none ∧
    observe (opendir_callback linux demo_cfg demo_world (some []) ⟨0, 0⟩) = none ∧
    observe (getattr_callback linux demo_cfg demo_world (some []) Stat.zero) ≠
      some (-(linux.EINVAL : Int), Stat.zero, []) ∧
    translate_path demo_cfg demo_world (some []) = .error Fault.assert_fail := by
  decide

/-! ## Handles of the wrong kind -/

/-- A read through a token that is zero, or that points to a block with room
for `os_fh` where that field is `-1`, gives `-EINVAL`. -/
theorem read_callback_einval (k : Consts) (w : World) (fi : fuse_file_info) (size offset : Nat)
    (h : fi.fh = 0 ∨ ∃ b, w.heap fi.fh = some b ∧ k.offsetof_os_fh + k.sizeof_int ≤ b.size ∧
      b.val.os_fh = -1) :
    read_callback k w fi size offset = .ok (-(k.EINVAL : Int), [], w) := by
  unfold read_callback
  by_cases h0 : fi.fh = 0
  · simp [h0]
  · obtain ⟨b, hb, hsz, hfd⟩ := h.resolve_left h0
    simp [h0, load_os_fh, hb, hsz, hfd]

/-- A listing through a token that is zero, or that points to a block with
room for `os_dirh` where that field is `NULL`, gives `-EINVAL`. -/
theorem readdir_callback_einval (k : Consts) (w : World) (fi : fuse_file_info)
    (buf : List (CStr × Int)) (offset : Int)
    (h : fi.fh = 0 ∨ ∃ b, w.heap fi.fh = some b ∧ k.sizeof_ptr ≤ b.size ∧ b.val.os_dirh = 0) :
    readdir_callback k w fi buf offset = .ok (-(k.EINVAL : Int), buf, w) := by
  unfold readdir_callback
  by_cases h0 : fi.fh = 0
  · simp [h0]
  · obtain ⟨b, hb, hsz, hd⟩ := h.resolve_left h0
    simp [h0, load_os_dirh, hb, hsz, hd]

/-- A read through a token that points to a block ending before `os_fh` does:
the load `hdl->os_fh` is outside the block. -/
theorem read_callback_out_of_bounds (k : Consts) (w : World) (fi : fuse_file_info)
    (size offset : Nat) (b : Block) (h0 : fi.fh ≠ 0) (hb : w.heap fi.fh = some b)
    (hsmall : b.size < k.offsetof_os_fh + k.sizeof_int) :
    read_callback k w fi size offset = .error (Fault.out_of_bounds, w) := by
  have h : ¬ (k.offsetof_os_fh + k.sizeof_int ≤ b.size) := by omega
  simp [read_callback, h0, load_os_fh, hb, h]

/-- Releasing a token that points to a block with room for `os_dirh` but
ending before `os_fh` does: the load `hdl->os_fh` of `free_handle` is outside
the block. -/
theorem free_handle_out_of_bounds (k : Consts) (w : World) (fi : fuse_file_info) (b : Block)
    (h0 : fi.fh ≠ 0) (hb : w.heap fi.fh = some b) (hsz : k.sizeof_ptr ≤ b.size)
    (hsmall : b.size < k.offsetof_os_fh + k.sizeof_int) :
    fault_of (free_handle k w fi) = some Fault.out_of_bounds := by
  have h : ¬ (k.offsetof_os_fh + k.sizeof_int ≤ b.size) := by omega
  unfold free_handle
  by_cases hd : b.val.os_dirh = 0
  · simp [h0, load_os_dirh, hb, hsz, hd, load_os_fh, h, fault_of]
  · simp [h0, load_os_dirh, hb, hsz, hd, store_os_dirh, sys_closedir, load_os_fh, update_same, h,
      fault_of]

/-- One call of `readdir_callback` on a stream that does not fail. -/
theorem readdir_callback_step (k : Consts) (w : World) (fi : fuse_file_info) (dirp : Nat)
    (es : List Dirent) (c : Nat) (buf : List (CStr × Int)) (offset : Int)
    (h : dir_at k w fi dirp es c) :
    ∃ w1, readdir_callback k w fi buf offset =
        .ok (0, buf ++ (es.get? c).toList.map entry_of, w1) ∧
      dir_at k w1 fi dirp es (min (c + 1) (max c es.length)) := by
  obtain ⟨h0, hd, ⟨b, hb, hsz, hv⟩, hs⟩ := h
  unfold readdir_callback
  simp only [h0, if_false, load_os_dirh, hb, hsz, if_true, hv, hd, sys_readdir, hs]
  cases hg : es.get? c with
  | none =>
    have hlen : es.length ≤ c := List.get?_eq_none.mp hg
    have hmin : min (c + 1) (max c es.length) = c := by omega
    refine ⟨{ w with errno := 0, trace := w.trace ++ [Syscall.readdir dirp] }, by simp, h0, hd,
      ⟨b, hb, hsz, hv⟩, ?_⟩
    rw [hmin]
    exact hs
  | some e =>
    have hlt : c < es.length := by
      by_contra hn
      have := List.get?_eq_none.mpr (Nat.le_of_not_lt hn)
      rw [this] at hg
      cases hg
    have hmin : min (c + 1) (max c es.length) = c + 1 := by omega
    refine ⟨{ w with errno := 0, trace := w.trace ++ [Syscall.readdir dirp],
                     dirs := update w.dirs dirp (some ⟨es, c + 1, none⟩) },
      by simp [filler, entry_of], h0, hd, ⟨b, hb, hsz, hv⟩, ?_⟩
    rw [hmin]
    simp [update]

/-- Repeated calls of `readdir_callback` on a stream that does not fail. -/
theorem readdir_calls_run (k : Consts) (fi : fuse_file_info) (dirp : Nat) (es : List Dirent)
    (offset : Int) (n : Nat) :
    ∀ (w : World) (c : Nat) (buf : List (CStr × Int)), c ≤ es.length → dir_at k w fi dirp es c →
      ∃ wn, readdir_calls k fi offset n w buf =
          .ok (List.replicate n 0, buf ++ ((es.drop c).take n).map entry_of, wn) ∧
        dir_at k wn fi dirp es (min (c + n) es.length) := by
  induction n with
  | zero =>
    intro w c buf hc h
    refine ⟨w, by simp [readdir_calls], ?_⟩
    rw [Nat.add_zero, Nat.min_eq_left hc]
    exact h
  | succ n ih =>
    intro w c buf hc h
    obtain ⟨w1, h1, hd1⟩ := readdir_callback_step k w fi dirp es c buf offset h
    have hmax : max c es.length = es.length := Nat.max_eq_right hc
    rw [hmax] at hd1
    obtain ⟨wn, h2, hd2⟩ := ih w1 (min (c + 1) es.length) (buf ++ (es.get? c).toList.map entry_of)
      (Nat.min_le_right _ _) hd1
    have hbuf : buf ++ (es.get? c).toList.map entry_of ++
        ((es.drop (min (c + 1) es.length)).take n).map entry_of =
        buf ++ ((es.drop c).take (n + 1)).map entry_of := by
      rw [List.append_assoc]
      congr 1
      by_cases hlt : c < es.length
      · have hmin : min (c + 1) es.length = c + 1 := by omega
        rw [hmin, List.get?_eq_getElem?, List.getElem?_eq_getElem hlt,
          List.drop_eq_getElem_cons hlt]
        simp only [Option.toList, List.take_succ_cons, List.map_cons, List.map_nil,
          List.singleton_append]
      · have hmin : min (c + 1) es.length = es.length := by omega
        have hge : es.length ≤ c := Nat.le_of_not_lt hlt
        rw [hmin, List.get?_eq_none.mpr hge, List.drop_eq_nil_of_le hge]
        simp
    rw [hbuf] at h2
    refine ⟨wn, ?_, ?_⟩
    · simp only [readdir_calls, h1, h2, List.replicate_succ]
    · have : min (min (c + 1) es.length + n) es.length = min (c + (n + 1)) es.length := by omega
      rw [← this]
      exact hd2

/-- A call of `readdir_callback` on a stream whose `readdir` fails. -/
theorem readdir_callback_error (k : Consts) (w : World) (fi : fuse_file_info) (dirp : Nat)
    (b : Block) (s : DirStream) (e : Nat) (buf : List (CStr × Int)) (offset : Int)
    (h0 : fi.fh ≠ 0) (hd : dirp ≠ 0) (hb : w.heap fi.fh = some b) (hsz : k.sizeof_ptr ≤ b.size)
    (hv : b.val.os_dirh = dirp) (hs : w.dirs dirp = some s) (he : s.fail = some e) :
    readdir_callback k w fi buf offset =
      .ok (-(e : Int), buf, { w with errno := e, trace := w.trace ++ [Syscall.readdir dirp] }) := by
  unfold readdir_callback
  simp only [h0, if_false, load_os_dirh, hb, hsz, if_true, hv, hd, sys_readdir, hs, he]

/-- A successful `opendir` when the block of the handle has room for `os_fh`:
`opendir_callback` returns 0 and the handle holds the stream. -/
theorem opendir_callback_roomy (k : Consts) (cfg : Config) (w : World) (B P : CStr)
    (fi : fuse_file_info) (ds : DirSpec) (hbase : cfg.basepath = some B) (hB : B ≠ [])
    (hP : P ≠ []) (hm : w.mallocOk (strlen B + strlen P + 2) = true)
    (hma : w.mallocOk k.sizeof_ptr = true)
    (hroom : k.offsetof_os_fh + k.sizeof_int ≤ k.sizeof_ptr + w.slack k.sizeof_ptr)
    (hdir : w.fs.opendir (some (code_join B P)) = .ok ds) :
    ∃ w1, opendir_callback k cfg w (some P) fi = .ok (0, { fi with fh := w.brk + 1 }, w1) ∧
      w1.heap (w.brk + 1) =
        some ⟨k.sizeof_ptr + w.slack k.sizeof_ptr, ⟨w.nextdir + 1, -1⟩⟩ ∧
      w1.dirs (w.nextdir + 1) = some ⟨ds.entries, 0, ds.fail⟩ ∧
      w1.trace = w.trace ++ [Syscall.opendir (some (code_join B P))] := by
  have ht := translate_path_ok cfg w B P hbase hB hP hm
  simp only [opendir_callback, ht, sys_opendir, hdir, alloc_handle_roomy, hma, hroom,
    store_os_dirh, update_same, Nat.le_add_right, if_true, update_update]
  exact ⟨_, rfl, by simp [update], by simp [update], by simp⟩

/-- A successful `opendir` when the block of the handle ends before `os_fh`
does: the run stops in `alloc_handle`, with the stream open and held by no
handle. -/
theorem opendir_callback_out_of_bounds (k : Consts) (cfg : Config) (w : World) (B P : CStr)
    (fi : fuse_file_info) (ds : DirSpec) (hbase : cfg.basepath = some B) (hB : B ≠ [])
    (hP : P ≠ []) (hm : w.mallocOk (strlen B + strlen P + 2) = true)
    (hma : w.mallocOk k.sizeof_ptr = true)
    (hsmall : k.sizeof_ptr + w.slack k.sizeof_ptr < k.offsetof_os_fh + k.sizeof_int)
    (hdir : w.fs.opendir (some (code_join B P)) = .ok ds) :
    ∃ w1, opendir_callback k cfg w (some P) fi = .error (Fault.out_of_bounds, w1) ∧
      w1.dirs (w.nextdir + 1) = some ⟨ds.entries, 0, ds.fail⟩ ∧
      w1.trace = w.trace ++ [Syscall.opendir (some (code_join B P))] := by
  have ht := translate_path_ok cfg w B P hbase hB hP hm
  simp only [opendir_callback, ht, sys_opendir, hdir, alloc_handle_out_of_bounds, hma, hsmall]
  exact ⟨_, rfl, by simp [update], by simp⟩

/-- When `opendir_callback` has opened a directory whose stream holds the
entries `es` and does not fail, and the block of the handle has room for
`os_fh`: `n` successive calls of `readdir_callback` all return 0 and have
handed to `filler` the first `n` entries of `es`, each once and in stream
order; the next call hands over exactly the entry of index `n` when there is
one and nothing otherwise, and returns 0. -/
theorem readdir_callback_stream_roomy (k : Consts) (cfg : Config) (w : World) (B P : CStr)
    (fi : fuse_file_info) (es : List Dirent) (hbase : cfg.basepath = some B) (hB : B ≠ [])
    (hP : P ≠ []) (hm : w.mallocOk (strlen B + strlen P + 2) = true)
    (hma : w.mallocOk k.sizeof_ptr = true)
    (hroom : k.offsetof_os_fh + k.sizeof_int ≤ k.sizeof_ptr + w.slack k.sizeof_ptr)
    (hdir : w.fs.opendir (some (code_join B P)) = .ok ⟨es, none⟩) :
    ∃ w1, opendir_callback k cfg w (some P) fi = .ok (0, { fi with fh := w.brk + 1 }, w1) ∧
      ∀ (offset : Int) (n : Nat), ∃ wn,
        readdir_calls k { fi with fh := w.brk + 1 } offset n w1 [] =
          .ok (List.replicate n 0, (es.take n).map entry_of, wn) ∧
        ∀ buf : List (CStr × Int), ∃ w2,
          readdir_callback k wn { fi with fh := w.brk + 1 } buf offset =
            .ok (0, buf ++ (es.get? n).toList.map entry_of, w2) := by
  obtain ⟨w1, h1, hheap, hdirs, _⟩ :=
    opendir_callback_roomy k cfg w B P fi ⟨es, none⟩ hbase hB hP hm hma hroom hdir
  refine ⟨w1, h1, ?_⟩
  intro offset n
  have hat : dir_at k w1 { fi with fh := w.brk + 1 } (w.nextdir + 1) es 0 :=
    ⟨Nat.succ_ne_zero _, Nat.succ_ne_zero _, ⟨_, hheap, Nat.le_add_right _ _, rfl⟩, hdirs⟩
  obtain ⟨wn, hn, hdn⟩ := readdir_calls_run k { fi with fh := w.brk + 1 } (w.nextdir + 1) es
    offset n w1 0 [] (Nat.zero_le _) hat
  refine ⟨wn, by simpa using hn, ?_⟩
  intro buf
  obtain ⟨w2, h2, _⟩ := readdir_callback_step k wn { fi with fh := w.brk + 1 } (w.nextdir + 1)
    es (min (0 + n) es.length) buf offset hdn
  refine ⟨w2, ?_⟩
  rw [h2]
  have hget : es.get? (min (0 + n) es.length) = es.get? n := by
    rw [Nat.zero_add]
    by_cases hlt : n < es.length
    · rw [Nat.min_eq_left (Nat.le_of_lt hlt)]
    · have hge : es.length ≤ n := Nat.le_of_not_lt hlt
      rw [Nat.min_eq_right hge, List.get?_eq_none.mpr hge,
        List.get?_eq_none.mpr (Nat.le_refl _)]
  rw [hget]

/-- A failed `opendir`: `opendir_callback` returns minus the error code, and
the `opendir` of the translated path is the only call made. -/
theorem opendir_callback_error (k : Consts) (cfg : Config) (w : World) (B P : CStr)
    (fi : fuse_file_info) (e : Nat) (hbase : cfg.basepath = some B) (hB : B ≠ [])
    (hP : P ≠ []) (hm : w.mallocOk (strlen B + strlen P + 2) = true)
    (hdir : w.fs.opendir (some (code_join B P)) = .error e) :
    opendir_callback k cfg w (some P) fi =
      .ok (-(e : Int), fi,
        { w with errno := e, trace := w.trace ++ [Syscall.opendir (some (code_join B P))] }) := by
  have ht := translate_path_ok cfg w B P hbase hB hP hm
  simp only [opendir_callback, ht, sys_opendir, hdir]

/-! ## Reading files -/

/-- The result of `read_callback` does not depend on `offset`. -/
theorem read_callback_offset (k : Consts) (w : World) (fi : fuse_file_info)
    (size offset1 offset2 : Nat) :
    read_callback k w fi size offset1 = read_callback k w fi size offset2 := rfl

/-- When the underlying `read` fails, `read_callback` returns `-1`, whatever
the error code. -/
theorem read_callback_error (k : Consts) (w : World) (fi : fuse_file_info) (fd : Nat)
    (b : Block) (f : OpenFile) (e size offset : Nat) (h0 : fi.fh ≠ 0)
    (hb : w.heap fi.fh = some b) (hsz : k.offsetof_os_fh + k.sizeof_int ≤ b.size)
    (hv : b.val.os_fh = (fd : Int)) (hf : w.fds fd = some f) (he : f.fail = some e) :
    read_callback k w fi size offset =
      .ok (-1, [], { w with errno := e, trace := w.trace ++ [Syscall.read (fd : Int) size] }) := by
  unfold read_callback
  simp [h0, load_os_fh, hb, hsz, hv, natCast_ne_neg_one, sys_read, hf, he]

/-- C1 at a failing input: after `open_callback` on `/a.txt`, whose bytes are
those of `hello`, `read_callback` with size 2 and offset 3 returns 2 and the
bytes of `he`, where a positioned read gives the bytes of `lo`; a second call,
with offset 0, returns the bytes of `ll`, where a positioned read gives `he`. -/
theorem read_callback_ignores_offset :
    open_callback linux demo_cfg demo_world (some "/a.txt".toList) ⟨0, 0⟩ =
      .ok (0, ⟨0, 1⟩,
        final_world (open_callback linux demo_cfg demo_world (some "/a.txt".toList) ⟨0, 0⟩)) ∧
    observe (read_callback linux
      (final_world (open_callback linux demo_cfg demo_world (some "/a.txt".toList) ⟨0, 0⟩))
      ⟨0, 1⟩ 2 3) =
      some (2, bytes_of "he",
        [Syscall.sopen (some "/data/a.txt".toList) 0, Syscall.read 3 2]) ∧
    pread_spec (bytes_of "hello") 2 3 = bytes_of "lo" ∧
    observe (read_callback linux
      (final_world (read_callback linux
        (final_world (open_callback linux demo_cfg demo_world (some "/a.txt".toList) ⟨0, 0⟩))
        ⟨0, 1⟩ 2 3))
      ⟨0, 1⟩ 2 0) =
      some (2, bytes_of "ll",
        [Syscall.sopen (some "/data/a.txt".toList) 0, Syscall.read 3 2, Syscall.read 3 2]) ∧
    pread_spec (bytes_of "hello") 2 0 = bytes_of "he" :=
  ⟨rfl, by decide, by decide, by decide, by decide⟩

/-- C6 at a failing input: after `open_callback` on `/bad`, a file on which
`read` fails with `EIO` (5), `read_callback` returns `-1`, not `-5`; `errno`
holds 5 when it returns. -/
theorem read_callback_loses_errno :
    open_callback linux demo_cfg demo_world (some "/bad".toList) ⟨0, 0⟩ =
      .ok (0, ⟨0, 1⟩,
        final_world (open_callback linux demo_cfg demo_world (some "/bad".toList) ⟨0, 0⟩)) ∧
    observe (read_callback linux
      (final_world (open_callback linux demo_cfg demo_world (some "/bad".toList) ⟨0, 0⟩))
      ⟨0, 1⟩ 4 0) =
      some (-1, [], [Syscall.sopen (some "/data/bad".toList) 0, Syscall.read 3 4]) ∧
    (final_world (read_callback linux
      (final_world (open_callback linux demo_cfg demo_world (some "/bad".toList) ⟨0, 0⟩))
      ⟨0, 1⟩ 4 0)).errno = 5 ∧
    (-1 : Int) ≠ -5 :=
  ⟨rfl, by decide, by decide, by decide⟩

end Deffs
